import Mathlib

/-!
Shallow embedding of the CHIP-8 CPU core in `src/processor.rs`
(`struct Cpu`, its instruction handlers and `Cpu::run`), together with
theorems checking the specification's claims about it.

Modelling conventions:
* `u8`/`u16` fields are `Nat`s; wrap-around is explicit (`% 256`).
* Fixed-size Rust arrays are functions `Nat → Nat`; `ram` is meaningful on
  indices `< 4096`, `stack` and `v` on `< 16`, `vram` on rows `< 32` and
  columns `< 64`.
* Rust operations that can panic are modelled as `Option`: bounds-checked
  array indexing (all build profiles) and checked `+=`/`-=` integer
  arithmetic (overflow is a program error in Rust; it panics under the
  debug assertions the crate's own test profile uses).  A panic aborts the
  step, so a `none` result carries no mutated state.
-/

namespace Chip8

/-- Control-flow outcome of one instruction (`enum ProgramCounterAction`). -/
inductive PcAction where
  | next
  | skip
  | jump (addr : Nat)
deriving DecidableEq

/-- `ProgramCounterAction::skip_if`. -/
def skipIf (condition : Bool) : PcAction :=
  if condition then PcAction.skip else PcAction.next

/-- The machine state (`pub struct Cpu` in `processor.rs`). -/
structure Cpu where
  ram : Nat → Nat
  stack : Nat → Nat
  pc : Nat
  sp : Nat
  dt : Nat
  st : Nat
  i : Nat
  v : Nat → Nat
  vram : Nat → Nat → Nat

/-- Functional model of the in-place array store `a[idx] = val`. -/
def update (f : Nat → Nat) (idx val : Nat) : Nat → Nat :=
  fun j => if j = idx then val else f j

/-- Rust `u8::overflowing_add` on byte values: the wrapped sum and the
overflow flag. -/
def overflowingAdd (a b : Nat) : Nat × Bool :=
  if 256 ≤ a + b then (a + b - 256, true) else (a + b, false)

/-- Rust `u8::overflowing_sub` on byte values: the wrapped difference and
the borrow flag. -/
def overflowingSub (a b : Nat) : Nat × Bool :=
  if a < b then (a + 256 - b, true) else (a - b, false)

/-- `Cpu::read_opcode`: big-endian fetch of the two bytes at `pc`.
The two bounds-checked indexings into `ram` are the `none` cases; the
function reads the state and returns only the fetched word. -/
def read_opcode (cpu : Cpu) : Option Nat :=
  if cpu.pc < 4096 then
    if cpu.pc + 1 < 4096 then
      some ((cpu.ram cpu.pc <<< 8) ||| cpu.ram (cpu.pc + 1))
    else none
  else none

/-- `op_3xkk`: skip next instruction if `Vx == kk`. -/
def op_3xkk (cpu : Cpu) (x kk : Nat) : Cpu × PcAction :=
  (cpu, skipIf (cpu.v x == kk))

/-- `op_4xkk`: skip next instruction if `Vx != kk`. -/
def op_4xkk (cpu : Cpu) (x kk : Nat) : Cpu × PcAction :=
  (cpu, skipIf (cpu.v x != kk))

/-- `op_5xy0`: skip next instruction if `Vx == Vy`. -/
def op_5xy0 (cpu : Cpu) (x y : Nat) : Cpu × PcAction :=
  (cpu, skipIf (cpu.v x == cpu.v y))

/-- `op_6xkk`: `Vx = kk`. -/
def op_6xkk (cpu : Cpu) (x kk : Nat) : Cpu × PcAction :=
  ({ cpu with v := update cpu.v x kk }, PcAction.next)

/-- `op_7xkk`: `self.v[x] += kk`.  The `+=` on `u8` is checked addition
(overflow is a panic, not a wrap), hence `none` when the sum exceeds 255. -/
def op_7xkk (cpu : Cpu) (x kk : Nat) : Option (Cpu × PcAction) :=
  if cpu.v x + kk < 256 then
    some ({ cpu with v := update cpu.v x (cpu.v x + kk) }, PcAction.next)
  else none

/-- `op_8xy0`: `Vx = Vy`. -/
def op_8xy0 (cpu : Cpu) (x y : Nat) : Cpu × PcAction :=
  ({ cpu with v := update cpu.v x (cpu.v y) }, PcAction.next)

/-- `op_8xy1`: `Vx = Vx | Vy`. -/
def op_8xy1 (cpu : Cpu) (x y : Nat) : Cpu × PcAction :=
  ({ cpu with v := update cpu.v x (cpu.v x ||| cpu.v y) }, PcAction.next)

/-- `op_8xy2`: `Vx = Vx & Vy`. -/
def op_8xy2 (cpu : Cpu) (x y : Nat) : Cpu × PcAction :=
  ({ cpu with v := update cpu.v x (cpu.v x &&& cpu.v y) }, PcAction.next)

/-- `op_8xy3`: `Vx = Vx ^ Vy`. -/
def op_8xy3 (cpu : Cpu) (x y : Nat) : Cpu × PcAction :=
  ({ cpu with v := update cpu.v x (cpu.v x ^^^ cpu.v y) }, PcAction.next)

/-- `op_8xy4`: `v[x] = result` of `v[x].overflowing_add(v[y])`, then
`v[0xf] = 1/0` from the overflow flag (the flag store comes second). -/
def op_8xy4 (cpu : Cpu) (x y : Nat) : Cpu × PcAction :=
  ({ cpu with
      v := update (update cpu.v x (overflowingAdd (cpu.v x) (cpu.v y)).1) 15
        (if (overflowingAdd (cpu.v x) (cpu.v y)).2 then 1 else 0) },
   PcAction.next)

/-- `op_8xy5`: `v[x] = result` of `v[x].overflowing_sub(v[y])`, then
`v[0xf]` from the borrow flag. -/
def op_8xy5 (cpu : Cpu) (x y : Nat) : Cpu × PcAction :=
  ({ cpu with
      v := update (update cpu.v x (overflowingSub (cpu.v x) (cpu.v y)).1) 15
        (if (overflowingSub (cpu.v x) (cpu.v y)).2 then 1 else 0) },
   PcAction.next)

/-- `op_8xy6`: `v[0xf] = v[x] & 0x1` first, then `v[x] = v[x] >> 1`.
The second line reads `v[x]` after the flag store, exactly as the Rust
statements execute. -/
def op_8xy6 (cpu : Cpu) (x y : Nat) : Cpu × PcAction :=
  ({ cpu with
      v :=
        update (update cpu.v 15 (cpu.v x &&& 1)) x
          ((update cpu.v 15 (cpu.v x &&& 1)) x >>> 1) },
   PcAction.next)

/-- `op_8xy7`: `v[x] = result` of `v[y].overflowing_sub(v[x])`, then
`v[0xf]` from the borrow flag. -/
def op_8xy7 (cpu : Cpu) (x y : Nat) : Cpu × PcAction :=
  ({ cpu with
      v := update (update cpu.v x (overflowingSub (cpu.v y) (cpu.v x)).1) 15
        (if (overflowingSub (cpu.v y) (cpu.v x)).2 then 1 else 0) },
   PcAction.next)

/-- `op_8xye`: `v[0xf]` is set from `v[x] & 0b10000000` first, then
`v[x] = v[x] << 1` (a `u8` shift keeps the low 8 bits).  The second line
reads `v[x]` after the flag store, as in the Rust code; the debug
`print!` has no effect on the state and is not modelled. -/
def op_8xye (cpu : Cpu) (x y : Nat) : Cpu × PcAction :=
  ({ cpu with
      v :=
        update (update cpu.v 15 (if 0 < cpu.v x &&& 128 then 1 else 0)) x
          (((update cpu.v 15 (if 0 < cpu.v x &&& 128 then 1 else 0)) x * 2) % 256) },
   PcAction.next)

/-- `op_00ee` (RET): read `stack[sp]` (bounds-checked), then `sp -= 1`
(checked `u8` subtraction: underflow at `sp = 0` is a panic, i.e. `none`),
and jump to the popped address. -/
def op_00ee (cpu : Cpu) : Option (Cpu × PcAction) :=
  if cpu.sp < 16 then
    if 1 ≤ cpu.sp then
      some ({ cpu with sp := cpu.sp - 1 }, PcAction.jump (cpu.stack cpu.sp))
    else none
  else none

/-- `op_1nnn` (JP): jump to `nnn`. -/
def op_1nnn (cpu : Cpu) (nnn : Nat) : Cpu × PcAction :=
  (cpu, PcAction.jump nnn)

/-- `op_2nnn` (CALL): `sp += 1` (checked `u8` addition), then the
bounds-checked store `stack[sp] = pc` of the current program counter, and
jump to `nnn`. -/
def op_2nnn (cpu : Cpu) (nnn : Nat) : Option (Cpu × PcAction) :=
  if cpu.sp + 1 < 256 then
    if cpu.sp + 1 < 16 then
      some ({ cpu with
                sp := cpu.sp + 1,
                stack := update cpu.stack (cpu.sp + 1) cpu.pc },
            PcAction.jump nnn)
    else none
  else none

/-- `op_00e0` (CLS): zero every in-range cell of `vram` (the double loop
over rows `0..32` and columns `0..64`). -/
def op_00e0 (cpu : Cpu) : Cpu × PcAction :=
  ({ cpu with
      vram := fun row col => if row < 32 ∧ col < 64 then 0 else cpu.vram row col },
   PcAction.next)

/-- First nibble of an opcode: `(opcode & 0xF000) >> 12`. -/
def nib1 (opcode : Nat) : Nat := (opcode &&& 0xF000) >>> 12

/-- Second nibble of an opcode: `(opcode & 0x0F00) >> 8` (the `x` field). -/
def nib2 (opcode : Nat) : Nat := (opcode &&& 0x0F00) >>> 8

/-- Third nibble of an opcode: `(opcode & 0x00F0) >> 4` (the `y` field). -/
def nib3 (opcode : Nat) : Nat := (opcode &&& 0x00F0) >>> 4

/-- Fourth nibble of an opcode: `opcode & 0x000F` (the `n` field). -/
def nib4 (opcode : Nat) : Nat := opcode &&& 0x000F

/-- Address operand: `opcode & 0x0FFF`. -/
def nnnOf (opcode : Nat) : Nat := opcode &&& 0x0FFF

/-- Immediate byte operand: `opcode & 0x00FF`. -/
def kkOf (opcode : Nat) : Nat := opcode &&& 0x00FF

/-- The instructions implemented by the `match` in `Cpu::run`, one
constructor per arm, carrying the operand fields the arm passes to its
handler. -/
inductive Instr where
  | cls
  | ret
  | jp (nnn : Nat)
  | call (nnn : Nat)
  | seImm (x kk : Nat)
  | sneImm (x kk : Nat)
  | seReg (x y : Nat)
  | ldImm (x kk : Nat)
  | addImm (x kk : Nat)
  | ldReg (x y : Nat)
  | orReg (x y : Nat)
  | andReg (x y : Nat)
  | xorReg (x y : Nat)
  | addReg (x y : Nat)
  | subReg (x y : Nat)
  | shrReg (x y : Nat)
  | subnReg (x y : Nat)
  | shlReg (x y : Nat)
deriving DecidableEq

/-- The pattern side of the `match` in `Cpu::run`: which arm a nibble
tuple selects, with the operand fields the arm uses; `none` is the
`panic!` arm for an unmatched pattern. -/
def decodeInstr (opcode : Nat) : Option Instr :=
  if nib1 opcode = 0 ∧ nib2 opcode = 0 ∧ nib3 opcode = 14 ∧ nib4 opcode = 0 then
    some Instr.cls
  else if nib1 opcode = 0 ∧ nib2 opcode = 0 ∧ nib3 opcode = 14 ∧ nib4 opcode = 14 then
    some Instr.ret
  else if nib1 opcode = 1 then some (Instr.jp (nnnOf opcode))
  else if nib1 opcode = 2 then some (Instr.call (nnnOf opcode))
  else if nib1 opcode = 3 then some (Instr.seImm (nib2 opcode) (kkOf opcode))
  else if nib1 opcode = 4 then some (Instr.sneImm (nib2 opcode) (kkOf opcode))
  else if nib1 opcode = 5 ∧ nib4 opcode = 0 then
    some (Instr.seReg (nib2 opcode) (nib3 opcode))
  else if nib1 opcode = 6 then some (Instr.ldImm (nib2 opcode) (kkOf opcode))
  else if nib1 opcode = 7 then some (Instr.addImm (nib2 opcode) (kkOf opcode))
  else if nib1 opcode = 8 ∧ nib4 opcode = 0 then
    some (Instr.ldReg (nib2 opcode) (nib3 opcode))
  else if nib1 opcode = 8 ∧ nib4 opcode = 1 then
    some (Instr.orReg (nib2 opcode) (nib3 opcode))
  else if nib1 opcode = 8 ∧ nib4 opcode = 2 then
    some (Instr.andReg (nib2 opcode) (nib3 opcode))
  else if nib1 opcode = 8 ∧ nib4 opcode = 3 then
    some (Instr.xorReg (nib2 opcode) (nib3 opcode))
  else if nib1 opcode = 8 ∧ nib4 opcode = 4 then
    some (Instr.addReg (nib2 opcode) (nib3 opcode))
  else if nib1 opcode = 8 ∧ nib4 opcode = 5 then
    some (Instr.subReg (nib2 opcode) (nib3 opcode))
  else if nib1 opcode = 8 ∧ nib4 opcode = 6 then
    some (Instr.shrReg (nib2 opcode) (nib3 opcode))
  else if nib1 opcode = 8 ∧ nib4 opcode = 7 then
    some (Instr.subnReg (nib2 opcode) (nib3 opcode))
  else if nib1 opcode = 8 ∧ nib4 opcode = 14 then
    some (Instr.shlReg (nib2 opcode) (nib3 opcode))
  else none

/-- The handler side of the `match` in `Cpu::run`: each arm invokes its
`op_*` handler on the decoded operands. -/
def execInstr (cpu : Cpu) : Instr → Option (Cpu × PcAction)
  | Instr.cls => some (op_00e0 cpu)
  | Instr.ret => op_00ee cpu
  | Instr.jp nnn => some (op_1nnn cpu nnn)
  | Instr.call nnn => op_2nnn cpu nnn
  | Instr.seImm x kk => some (op_3xkk cpu x kk)
  | Instr.sneImm x kk => some (op_4xkk cpu x kk)
  | Instr.seReg x y => some (op_5xy0 cpu x y)
  | Instr.ldImm x kk => some (op_6xkk cpu x kk)
  | Instr.addImm x kk => op_7xkk cpu x kk
  | Instr.ldReg x y => some (op_8xy0 cpu x y)
  | Instr.orReg x y => some (op_8xy1 cpu x y)
  | Instr.andReg x y => some (op_8xy2 cpu x y)
  | Instr.xorReg x y => some (op_8xy3 cpu x y)
  | Instr.addReg x y => some (op_8xy4 cpu x y)
  | Instr.subReg x y => some (op_8xy5 cpu x y)
  | Instr.shrReg x y => some (op_8xy6 cpu x y)
  | Instr.subnReg x y => some (op_8xy7 cpu x y)
  | Instr.shlReg x y => some (op_8xye cpu x y)

/-- The decode-and-execute dispatch of `Cpu::run`: the `match` over the
four nibbles, split into its pattern side and its handler side. -/
def dispatch (cpu : Cpu) (opcode : Nat) : Option (Cpu × PcAction) :=
  (decodeInstr opcode).bind (execInstr cpu)

/-- The program-counter move at the end of `Cpu::run`.  `pc` is a `u16`
and the `+=` is checked addition, hence the `none` cases. -/
def applyAction (cpu : Cpu) (action : PcAction) : Option Cpu :=
  match action with
  | PcAction.next => if cpu.pc + 2 < 65536 then some { cpu with pc := cpu.pc + 2 } else none
  | PcAction.skip => if cpu.pc + 4 < 65536 then some { cpu with pc := cpu.pc + 4 } else none
  | PcAction.jump addr => some { cpu with pc := addr }

/-- `Cpu::run`: decode and execute one instruction, then move the program
counter according to the returned action; `none` is a panic of the step. -/
def run (cpu : Cpu) (opcode : Nat) : Option Cpu :=
  (dispatch cpu opcode).bind fun p => applyAction p.1 p.2

/-- An opcode's nibble pattern matches some arm of the `match` in
`Cpu::run` (one disjunct per arm, in source order). -/
def decoded (opcode : Nat) : Prop :=
  (nib1 opcode = 0 ∧ nib2 opcode = 0 ∧ nib3 opcode = 14 ∧ nib4 opcode = 0)
  ∨ (nib1 opcode = 0 ∧ nib2 opcode = 0 ∧ nib3 opcode = 14 ∧ nib4 opcode = 14)
  ∨ nib1 opcode = 1
  ∨ nib1 opcode = 2
  ∨ nib1 opcode = 3
  ∨ nib1 opcode = 4
  ∨ (nib1 opcode = 5 ∧ nib4 opcode = 0)
  ∨ nib1 opcode = 6
  ∨ nib1 opcode = 7
  ∨ (nib1 opcode = 8 ∧ nib4 opcode = 0)
  ∨ (nib1 opcode = 8 ∧ nib4 opcode = 1)
  ∨ (nib1 opcode = 8 ∧ nib4 opcode = 2)
  ∨ (nib1 opcode = 8 ∧ nib4 opcode = 3)
  ∨ (nib1 opcode = 8 ∧ nib4 opcode = 4)
  ∨ (nib1 opcode = 8 ∧ nib4 opcode = 5)
  ∨ (nib1 opcode = 8 ∧ nib4 opcode = 6)
  ∨ (nib1 opcode = 8 ∧ nib4 opcode = 7)
  ∨ (nib1 opcode = 8 ∧ nib4 opcode = 14)

instance (opcode : Nat) : Decidable (decoded opcode) := by
  unfold decoded; infer_instance

/-- A concrete machine state for evaluating the theorems: the reset state
of `Cpu::new` with an all-zero `ram` (the font table the constructor loads
plays no role in any claim checked here). -/
def cpu0 : Cpu where
  ram := fun _ => 0
  stack := fun _ => 0
  pc := 0x200
  sp := 0
  dt := 0
  st := 0
  i := 0
  v := fun _ => 0
  vram := fun _ _ => 0

/-- `cpu0` with `V0 = 0xFF`. -/
def cpuV0FF : Cpu := { cpu0 with v := update cpu0.v 0 0xFF }

/-- `cpu0` with `VF = 1`. -/
def cpuVF1 : Cpu := { cpu0 with v := update cpu0.v 15 1 }

/-- `cpu0` with `V0 = 0xFF` and `V1 = 0x02` (the spec's arithmetic
examples). -/
def cpuAddEx : Cpu := { cpu0 with v := update (update cpu0.v 0 0xFF) 1 2 }

/-- `cpu0` with `sp = 15`: every pushable stack slot is occupied under the
code's convention (slots 1 through 15 hold the live return addresses). -/
def cpuFull : Cpu := { cpu0 with sp := 15 }

/-- The successor state of one CLS (`00E0`) step: `op_00e0`'s state with
the program counter advanced by one instruction width. -/
def clsResult (cpu : Cpu) : Cpu := { (op_00e0 cpu).1 with pc := cpu.pc + 2 }

/-- Claim C1.  The claim states that CALL at `pc = 0x200` followed by RET
restores `program_counter` to `0x202` and `stack_pointer` to its pre-call
value.  Evaluating the code at that very input: `op_2nnn` pushes the
current `pc` (the address of the CALL instruction itself, `0x200`, not
the following instruction), so the RET jumps back to the CALL: the final
program counter is `0x200`, not the `0x202` the claim requires.  The
stack pointer half of the claim does hold (it returns to 0). -/
theorem call_then_ret_returns_to_call_site :
    ((run cpu0 0x2300).bind fun c => run c 0x00EE).map (fun c => (c.pc, c.sp))
        = some (0x200, 0)
      ∧ (0x200 : Nat) ≠ 0x202 := by
  exact ⟨rfl, by decide⟩

/-- Claim C2.  The claim states that `7xkk` always succeeds and wraps
modulo 256.  The code's `self.v[x] += kk` is Rust checked `u8` addition,
so at `V0 = 0xFF`, `kk = 0x02` (opcode `0x7002`) the step is an overflow
panic — `none` in the model — instead of the claimed wrap to `0x01`. -/
theorem add_imm_overflow_step_fails : run cpuV0FF 0x7002 = none := by
  rfl

/-- Claim C3, counterexample.  The claim states that for `8xy6` the final
`VF` equals the pre-shift low bit of `Vx` **including when `x = 0xF`**.
At `x = 0xF` with `VF = 1` (opcode `0x8F06`): the pre-shift low bit is 1,
but the code stores the flag first and the shifted result afterwards, so
the shift overwrites the flag and the final `VF` is `0`. -/
theorem shr_vf_flag_clobbered_when_x_is_f :
    (run cpuVF1 0x8F06).map (fun c => c.v 15) = some 0
      ∧ cpuVF1.v 15 &&& 1 = 1 := by
  exact ⟨rfl, by decide⟩

/-- Claim C3, amended.  In `op_8xy6` and `op_8xye` the flag is extracted
from the pre-shift value of `Vx` (with `y` decoded but unused), but `VF`
is written *before* the shifted result is stored; consequently for every
register index `x ≠ 0xF` the final `VF` equals the pre-shift low bit of
`Vx` (for `8xy6`), resp. `1` iff its pre-shift high bit is set (for
`8xyE`), and `Vx` holds the shifted result, while for `x = 0xF` the
stored shift result overwrites the flag. -/
theorem shift_flag_written_before_result (cpu : Cpu) (x y : Nat)
    (hx : x < 16) (hne : x ≠ 15) :
    (op_8xy6 cpu x y).1.v 15 = cpu.v x &&& 1
      ∧ (op_8xy6 cpu x y).1.v x = cpu.v x >>> 1
      ∧ (op_8xy6 cpu x y).2 = PcAction.next
      ∧ (op_8xye cpu x y).1.v 15 = (if 0 < cpu.v x &&& 128 then 1 else 0)
      ∧ (op_8xye cpu x y).1.v x = cpu.v x * 2 % 256
      ∧ (op_8xye cpu x y).2 = PcAction.next := by
  have h15 : (15 : Nat) ≠ x := fun h => hne h.symm
  refine ⟨?_, ?_, rfl, ?_, ?_, rfl⟩ <;>
    simp [op_8xy6, op_8xye, update, hne, h15]

/-- Witness for the amended C3 theorem at `x = 0`, `y = 0` on `cpu0`. -/
theorem shift_flag_written_before_result_witness :
    (op_8xy6 cpu0 0 0).1.v 15 = cpu0.v 0 &&& 1
      ∧ (op_8xy6 cpu0 0 0).1.v 0 = cpu0.v 0 >>> 1
      ∧ (op_8xy6 cpu0 0 0).2 = PcAction.next
      ∧ (op_8xye cpu0 0 0).1.v 15 = (if 0 < cpu0.v 0 &&& 128 then 1 else 0)
      ∧ (op_8xye cpu0 0 0).1.v 0 = cpu0.v 0 * 2 % 256
      ∧ (op_8xye cpu0 0 0).2 = PcAction.next :=
  shift_flag_written_before_result cpu0 0 0 (by decide) (by decide)

/-- Claim C4.  Popping with an empty stack (RET at `sp = 0`) and pushing
past the capacity (CALL with `sp ≥ 15`, when every pushable slot is
occupied) both abort the step — the checked `sp` arithmetic and the
bounds-checked store reject them — rather than wrapping the stack pointer
and continuing. -/
theorem stack_underflow_and_overflow_rejected (c1 c2 : Cpu) (nnn : Nat)
    (h0 : c1.sp = 0) (hfull : 15 ≤ c2.sp) :
    op_00ee c1 = none ∧ op_2nnn c2 nnn = none := by
  constructor
  · simp [op_00ee, h0]
  · unfold op_2nnn
    rcases Nat.lt_or_ge (c2.sp + 1) 256 with hov | hov
    · rw [if_pos hov, if_neg (by omega)]
    · rw [if_neg (by omega)]

/-- Witness for C4: RET on the empty-stack `cpu0`, CALL on the full
`cpuFull`. -/
theorem stack_underflow_and_overflow_rejected_witness :
    op_00ee cpu0 = none ∧ op_2nnn cpuFull 0x300 = none :=
  stack_underflow_and_overflow_rejected cpu0 cpuFull 0x300 (by decide) (by decide)

/-- Claim C5.  For every opcode whose nibble pattern matches no arm of the
`match` in `Cpu::run`, the step is the `panic!` arm: it produces no
successor state at all (`none`), so no field of the machine state is
mutated by that step. -/
theorem unknown_opcode_mutates_nothing (cpu : Cpu) (opcode : Nat)
    (h : ¬ decoded opcode) :
    run cpu opcode = none := by
  unfold decoded at h
  simp only [not_or] at h
  obtain ⟨h1, h2, h3, h4, h5, h6, h7, h8, h9, h10,
    h11, h12, h13, h14, h15, h16, h17, h18⟩ := h
  unfold run dispatch decodeInstr
  rw [if_neg h1, if_neg h2, if_neg h3, if_neg h4, if_neg h5, if_neg h6,
    if_neg h7, if_neg h8, if_neg h9, if_neg h10, if_neg h11, if_neg h12,
    if_neg h13, if_neg h14, if_neg h15, if_neg h16, if_neg h17, if_neg h18]
  rfl

/-- Witness for C5 at the spec's example opcode `0x0022`. -/
theorem unknown_opcode_mutates_nothing_witness :
    ¬ decoded 0x0022 ∧ run cpu0 0x0022 = none :=
  ⟨by decide, unknown_opcode_mutates_nothing cpu0 0x0022 (by decide)⟩

/-- Claim C6.  For all byte values in `Vx` and `Vy` (with `x ≠ 0xF`, so
that the result register and the flag register are distinct), `8xy4`
stores `(Vx + Vy) mod 256` and sets `VF = 1` exactly on 8-bit overflow,
`8xy5` stores `(Vx - Vy) mod 256` and sets `VF = 1` exactly on
underflow, and `8xy7` stores `(Vy - Vx) mod 256` and sets `VF = 1`
exactly on underflow — the flag of the truncating 8-bit operation itself. -/
theorem add_sub_subn_truncate_and_flag (cpu : Cpu) (x y : Nat)
    (hx : x < 16) (hy : y < 16) (hne : x ≠ 15)
    (hvx : cpu.v x < 256) (hvy : cpu.v y < 256) :
    ((op_8xy4 cpu x y).1.v x = (cpu.v x + cpu.v y) % 256
        ∧ (op_8xy4 cpu x y).1.v 15 = (if 256 ≤ cpu.v x + cpu.v y then 1 else 0))
      ∧ ((op_8xy5 cpu x y).1.v x = (cpu.v x + 256 - cpu.v y) % 256
        ∧ (op_8xy5 cpu x y).1.v 15 = (if cpu.v x < cpu.v y then 1 else 0))
      ∧ ((op_8xy7 cpu x y).1.v x = (cpu.v y + 256 - cpu.v x) % 256
        ∧ (op_8xy7 cpu x y).1.v 15 = (if cpu.v y < cpu.v x then 1 else 0)) := by
  have h15 : (15 : Nat) ≠ x := fun h => hne h.symm
  refine ⟨?_, ?_, ?_⟩
  · rcases Nat.lt_or_ge (cpu.v x + cpu.v y) 256 with hc | hc
    · have hc' : ¬ (256 ≤ cpu.v x + cpu.v y) := by omega
      constructor <;> simp [op_8xy4, update, overflowingAdd, hne, h15, hc'] <;> omega
    · have hc' : 256 ≤ cpu.v x + cpu.v y := hc
      constructor <;> simp [op_8xy4, update, overflowingAdd, hne, h15, hc'] <;> omega
  · rcases Nat.lt_or_ge (cpu.v x) (cpu.v y) with hc | hc
    · constructor <;> simp [op_8xy5, update, overflowingSub, hne, h15, hc] <;> omega
    · have hc' : ¬ (cpu.v x < cpu.v y) := by omega
      constructor <;> simp [op_8xy5, update, overflowingSub, hne, h15, hc'] <;> omega
  · rcases Nat.lt_or_ge (cpu.v y) (cpu.v x) with hc | hc
    · constructor <;> simp [op_8xy7, update, overflowingSub, hne, h15, hc] <;> omega
    · have hc' : ¬ (cpu.v y < cpu.v x) := by omega
      constructor <;> simp [op_8xy7, update, overflowingSub, hne, h15, hc'] <;> omega

/-- Witness for C6 at the spec's example `Vx = 0xFF`, `Vy = 0x02`
(registers `V0`, `V1` of `cpuAddEx`): in particular `8xy4` yields
`Vx = 0x01`, `VF = 1` and `8xy5` yields `Vx = 0xFF`, `VF = 1`. -/
theorem add_sub_subn_truncate_and_flag_witness :
    ((op_8xy4 cpuAddEx 0 1).1.v 0 = (cpuAddEx.v 0 + cpuAddEx.v 1) % 256
        ∧ (op_8xy4 cpuAddEx 0 1).1.v 15
            = (if 256 ≤ cpuAddEx.v 0 + cpuAddEx.v 1 then 1 else 0))
      ∧ ((op_8xy5 cpuAddEx 0 1).1.v 0 = (cpuAddEx.v 0 + 256 - cpuAddEx.v 1) % 256
        ∧ (op_8xy5 cpuAddEx 0 1).1.v 15
            = (if cpuAddEx.v 0 < cpuAddEx.v 1 then 1 else 0))
      ∧ ((op_8xy7 cpuAddEx 0 1).1.v 0 = (cpuAddEx.v 1 + 256 - cpuAddEx.v 0) % 256
        ∧ (op_8xy7 cpuAddEx 0 1).1.v 15
            = (if cpuAddEx.v 1 < cpuAddEx.v 0 then 1 else 0)) :=
  add_sub_subn_truncate_and_flag cpuAddEx 0 1 (by decide) (by decide)
    (by decide) (by decide) (by decide)

/-- Claim C7.  `read_opcode` returns the big-endian word built from the
byte at `pc` (high) and the byte at `pc + 1` (low); being a plain
function of the state into an optional word, it mutates nothing.  The
hypotheses are the `u8` range of the two bytes and the in-bounds
program counter the spec's invariants guarantee. -/
theorem read_opcode_big_endian (cpu : Cpu) (hpc : cpu.pc + 1 < 4096)
    (hhi : cpu.ram cpu.pc < 256) (hlo : cpu.ram (cpu.pc + 1) < 256) :
    read_opcode cpu = some (256 * cpu.ram cpu.pc + cpu.ram (cpu.pc + 1)) := by
  unfold read_opcode
  rw [if_pos (by omega), if_pos hpc]
  have h : cpu.ram cpu.pc <<< 8 = 2 ^ 8 * cpu.ram cpu.pc := by
    rw [Nat.shiftLeft_eq]; ring
  rw [h, ← Nat.mul_add_lt_is_or hlo]

/-- Witness for C7 at the spec's example: `ram[0x200] = 0xB1`,
`ram[0x201] = 0x5A`, `pc = 0x200` fetches `0xB15A`. -/
theorem read_opcode_big_endian_witness :
    read_opcode
        { cpu0 with ram := update (update cpu0.ram 0x200 0xB1) 0x201 0x5A }
      = some 0xB15A := by
  have h := read_opcode_big_endian
    { cpu0 with ram := update (update cpu0.ram 0x200 0xB1) 0x201 0x5A }
    (by decide) (by decide) (by decide)
  rw [h]
  rfl

/-- Claim C8.  After CLS (`00E0`) every pixel of the 64×32 frame buffer
is 0 and the program counter has advanced by exactly 2; a second CLS
leaves the frame buffer identical to after the first (still all zero)
and again advances the program counter by 2.  The hypothesis is the
in-range program counter (`u16` headroom for the two increments). -/
theorem cls_clears_and_advances (cpu : Cpu) (h : cpu.pc + 4 < 65536) :
    run cpu 0x00E0 = some (clsResult cpu)
      ∧ run (clsResult cpu) 0x00E0 = some (clsResult (clsResult cpu))
      ∧ (clsResult cpu).pc = cpu.pc + 2
      ∧ (clsResult (clsResult cpu)).pc = (clsResult cpu).pc + 2
      ∧ (∀ row col, row < 32 → col < 64 → (clsResult cpu).vram row col = 0)
      ∧ (∀ row col, row < 32 → col < 64 →
          (clsResult (clsResult cpu)).vram row col = (clsResult cpu).vram row col) := by
  have step : ∀ d : Cpu, d.pc + 2 < 65536 → run d 0x00E0 = some (clsResult d) := by
    intro d hd
    have h1 : run d 0x00E0 = applyAction (op_00e0 d).1 PcAction.next := rfl
    rw [h1]
    show (if d.pc + 2 < 65536 then some { (op_00e0 d).1 with pc := d.pc + 2 } else none)
        = some (clsResult d)
    rw [if_pos hd]
    rfl
  refine ⟨step cpu (by omega), step (clsResult cpu) ?_, rfl, rfl, ?_, ?_⟩
  · simp [clsResult]; omega
  · intro row col hr hc
    simp [clsResult, op_00e0, hr, hc]
  · intro row col hr hc
    simp [clsResult, op_00e0, hr, hc]

/-- Witness for C8 at `cpu0`: the step equation and a sample cleared
pixel. -/
theorem cls_clears_and_advances_witness :
    run cpu0 0x00E0 = some (clsResult cpu0) ∧ (clsResult cpu0).vram 0 0 = 0 :=
  ⟨(cls_clears_and_advances cpu0 (by decide)).1,
   (cls_clears_and_advances cpu0 (by decide)).2.2.2.2.1 0 0 (by decide) (by decide)⟩

/-- Helper: every handler invocation that succeeds leaves the timers and
stack slot 0 unchanged (no handler touches `dt`/`st`, and the only stack
store, in `op_2nnn`, is at index `sp + 1 ≥ 1`). -/
theorem execInstr_preserves_fields (cpu : Cpu) (instr : Instr) (p : Cpu × PcAction)
    (h : execInstr cpu instr = some p) :
    p.1.dt = cpu.dt ∧ p.1.st = cpu.st ∧ p.1.stack 0 = cpu.stack 0 := by
  cases instr
  all_goals
    simp only [execInstr, op_00e0, op_00ee, op_1nnn, op_2nnn, op_3xkk, op_4xkk,
      op_5xy0, op_6xkk, op_7xkk, op_8xy0, op_8xy1, op_8xy2, op_8xy3, op_8xy4,
      op_8xy5, op_8xy6, op_8xy7, op_8xye] at h
  all_goals try split_ifs at h
  all_goals try exact Option.noConfusion h
  all_goals rw [Option.some.injEq] at h
  all_goals subst h
  all_goals refine ⟨rfl, rfl, ?_⟩
  all_goals try rfl
  all_goals simp only [update]
  all_goals rw [if_neg (by omega)]

/-- Helper: every successful decode-and-execute step preserves the timers
and stack slot 0. -/
theorem dispatch_preserves_fields (cpu : Cpu) (opcode : Nat) (p : Cpu × PcAction)
    (h : dispatch cpu opcode = some p) :
    p.1.dt = cpu.dt ∧ p.1.st = cpu.st ∧ p.1.stack 0 = cpu.stack 0 := by
  unfold dispatch at h
  cases hd : decodeInstr opcode with
  | none => rw [hd] at h; exact Option.noConfusion h
  | some instr =>
    rw [hd] at h
    simp only [Option.some_bind] at h
    exact execInstr_preserves_fields cpu instr p h

/-- Helper: the program-counter move of `Cpu::run` changes no field other
than `pc`. -/
theorem applyAction_preserves_fields (c : Cpu) (a : PcAction) (c2 : Cpu)
    (h : applyAction c a = some c2) :
    c2.dt = c.dt ∧ c2.st = c.st ∧ c2.stack 0 = c.stack 0 := by
  cases a with
  | next =>
    have h2 : (if c.pc + 2 < 65536 then some { c with pc := c.pc + 2 } else none)
        = some c2 := h
    split_ifs at h2
    rw [Option.some.injEq] at h2; subst h2; exact ⟨rfl, rfl, rfl⟩
  | skip =>
    have h2 : (if c.pc + 4 < 65536 then some { c with pc := c.pc + 4 } else none)
        = some c2 := h
    split_ifs at h2
    rw [Option.some.injEq] at h2; subst h2; exact ⟨rfl, rfl, rfl⟩
  | jump addr =>
    have h2 : some { c with pc := addr } = some c2 := h
    rw [Option.some.injEq] at h2
    subst h2
    exact ⟨rfl, rfl, rfl⟩

/-- Claim C9.  For every opcode whose step executes successfully, the
delay and sound timers after the step equal their values before it: no
instruction handler reads from or writes to either timer. -/
theorem step_preserves_timers (cpu : Cpu) (opcode : Nat) (c : Cpu)
    (h : run cpu opcode = some c) :
    c.dt = cpu.dt ∧ c.st = cpu.st := by
  unfold run at h
  cases hd : dispatch cpu opcode with
  | none => rw [hd] at h; simp at h
  | some p =>
    rw [hd] at h
    simp only [Option.some_bind] at h
    obtain ⟨d1, d2, -⟩ := dispatch_preserves_fields cpu opcode p hd
    obtain ⟨a1, a2, -⟩ := applyAction_preserves_fields p.1 p.2 c h
    exact ⟨a1.trans d1, a2.trans d2⟩

/-- Witness for C9: one successful CLS step on `cpu0`. -/
theorem step_preserves_timers_witness :
    ((run cpu0 0x00E0).getD cpu0).dt = cpu0.dt
      ∧ ((run cpu0 0x00E0).getD cpu0).st = cpu0.st :=
  step_preserves_timers cpu0 0x00E0 ((run cpu0 0x00E0).getD cpu0) rfl

/-- Claim C10.  CALL stores the return address at stack index `sp + 1`
(and only there), so no instruction ever writes stack slot 0; a CALL with
`sp = 15` reaches index 16 of the 16-element array and is rejected as out
of bounds; hence at most 15 return addresses (slots 1 through 15) can be
live although the array has 16 slots. -/
theorem call_pushes_at_sp_plus_one :
    (∀ cpu opcode c, run cpu opcode = some c → c.stack 0 = cpu.stack 0)
      ∧ (∀ cpu nnn, 15 ≤ cpu.sp → op_2nnn cpu nnn = none)
      ∧ (∀ cpu nnn p, op_2nnn cpu nnn = some p →
          p.1.sp = cpu.sp + 1
            ∧ p.1.stack (cpu.sp + 1) = cpu.pc
            ∧ ∀ j, j ≠ cpu.sp + 1 → p.1.stack j = cpu.stack j) := by
  refine ⟨?_, ?_, ?_⟩
  · intro cpu opcode c h
    unfold run at h
    cases hd : dispatch cpu opcode with
    | none => rw [hd] at h; simp at h
    | some p =>
      rw [hd] at h
      simp only [Option.some_bind] at h
      obtain ⟨-, -, d3⟩ := dispatch_preserves_fields cpu opcode p hd
      obtain ⟨-, -, a3⟩ := applyAction_preserves_fields p.1 p.2 c h
      exact a3.trans d3
  · intro cpu nnn hsp
    unfold op_2nnn
    rcases Nat.lt_or_ge (cpu.sp + 1) 256 with hov | hov
    · rw [if_pos hov, if_neg (by omega)]
    · rw [if_neg (by omega)]
  · intro cpu nnn p h
    have h2 : (if cpu.sp + 1 < 256 then
          (if cpu.sp + 1 < 16 then
            some ({ cpu with
                      sp := cpu.sp + 1,
                      stack := update cpu.stack (cpu.sp + 1) cpu.pc },
                  PcAction.jump nnn)
           else none)
        else none) = some p := h
    split_ifs at h2
    rw [Option.some.injEq] at h2
    subst h2
    refine ⟨rfl, ?_, ?_⟩
    · simp [update]
    · intro j hj
      simp [update, hj]

/-- Witness for C10: the full-stack CALL is rejected, and a CALL step
from `cpu0` leaves stack slot 0 untouched. -/
theorem call_pushes_at_sp_plus_one_witness :
    op_2nnn cpuFull 0x300 = none
      ∧ ((run cpu0 0x2300).getD cpu0).stack 0 = cpu0.stack 0 :=
  ⟨call_pushes_at_sp_plus_one.2.1 cpuFull 0x300 (by decide),
   call_pushes_at_sp_plus_one.1 cpu0 0x2300 ((run cpu0 0x2300).getD cpu0) rfl⟩

end Chip8
